import Mathlib

/-
Verification of the add-on deployment & teardown orchestration pattern of the
cdk-eks-cluster-builder repository.

The embedding covers:
  * the inline Python cleanup lambdas of ArgoCDCoreAddOn
    (src/lib/addons/argocdcore/argocdcore.ts), ArgoCDAddOn and
    ArgoRolloutsAddOn, modelled as pure functions over an abstract executor
    for the external command surface (aws / helm / kubectl);
  * the CDK resource graphs built by the three deploy methods, modelled as
    lists of resource nodes with explicit dependsOn edges;
  * the cleanup custom-resource registration (property bag with a
    timestamp nonce, dependency on the owning chart/workload);
  * a DependencyGraph.build operation modelled from the spec (no such
    function exists in the repository sources; the CDK dependency engine is
    an external collaborator).

Machine-level effects (subprocess exit codes, Python exceptions) are modelled
by a three-valued step outcome: ok, exitFailure (a CalledProcessError raised
by subprocess.check_call) and exceptional (any other Python exception, e.g.
FileNotFoundError for a missing executable).
-/

/-- RequestType field of a CloudFormation lifecycle event. -/
inductive RequestType
  | create
  | update
  | delete
deriving DecidableEq, Repr

/-- Outcome of one external command invoked via subprocess.check_call:
ok (exit status 0), exitFailure (non-zero exit status, surfacing as
subprocess.CalledProcessError), or exceptional (any other raised exception,
such as FileNotFoundError when the executable is missing). -/
inductive StepOutcome
  | ok
  | exitFailure
  | exceptional
deriving DecidableEq, Repr

/-- Status discriminator of the cfnresponse.send call ending the handler. -/
inductive CfnStatus
  | success
  | failed
deriving DecidableEq, Repr

/-- External commands issued by the cleanup handlers, with their arguments. -/
inductive Cmd
  | updateKubeconfig (clusterName region : String)
  | helmUninstall (releaseName nsName : String)
  | kubectlDeleteAll (nsName : String)
  | kubectlDeleteCRDs (labelSelector : String)
  | kubectlDeleteNamespace (nsName : String) (ignoreNotFound : Bool)
deriving DecidableEq, Repr

/-- ResourceProperties bag of the Custom::ArgoCDCoreCleanup resource.
The source sets timestamp: Date.now().toString(); the clock reading is
modelled as the Nat it stringifies. The Kubernetes namespace property is
called nsName here because namespace is a Lean keyword. -/
structure CoreCleanupProps where
  timestamp : Nat
  nsName : String
  clusterName : String
  region : String
deriving DecidableEq, Repr

/-- ResourceProperties bag of the Custom::ArgoCDCleanup and
Custom::ArgoRolloutsCleanup resources (helm-based add-ons also carry a
releaseName). -/
structure HelmCleanupProps where
  timestamp : Nat
  nsName : String
  releaseName : String
  clusterName : String
  region : String
deriving DecidableEq, Repr

/-- Result of one handler invocation: the cfnresponse status, the external
commands issued in order, and the final state of the executor. -/
structure HandlerRun (σ : Type) where
  status : CfnStatus
  calls : List Cmd
  final : σ
deriving Repr

/-- Delete branch of the ArgoCDCoreAddOn cleanup lambda
(src/lib/addons/argocdcore/argocdcore.ts, inline handler): an unguarded
update-kubeconfig call, then three per-step guarded calls (delete all
resources, delete CRDs, delete the namespace with --ignore-not-found),
each guard absorbing only subprocess.CalledProcessError; any other
exception propagates to the top-level handler which reports FAILED. -/
def coreDeleteRun {σ : Type} (exec : Cmd → σ → StepOutcome × σ)
    (p : CoreCleanupProps) (s : σ) : HandlerRun σ :=
  let c1 := Cmd.updateKubeconfig p.clusterName p.region
  let (r1, s1) := exec c1 s
  match r1 with
  | .ok =>
    let c2 := Cmd.kubectlDeleteAll p.nsName
    let (r2, s2) := exec c2 s1
    match r2 with
    | .exceptional => ⟨.failed, [c1, c2], s2⟩
    | _ =>
      let c3 := Cmd.kubectlDeleteCRDs "app.kubernetes.io/part-of=argocd"
      let (r3, s3) := exec c3 s2
      match r3 with
      | .exceptional => ⟨.failed, [c1, c2, c3], s3⟩
      | _ =>
        let c4 := Cmd.kubectlDeleteNamespace p.nsName true
        let (r4, s4) := exec c4 s3
        match r4 with
        | .exceptional => ⟨.failed, [c1, c2, c3, c4], s4⟩
        | _ => ⟨.success, [c1, c2, c3, c4], s4⟩
  | _ => ⟨.failed, [c1], s1⟩

/-- Whole ArgoCDCoreAddOn cleanup handler: cleanup runs only on Delete;
Create and Update immediately send SUCCESS with no external call. -/
def coreCleanupHandler {σ : Type} (rt : RequestType)
    (exec : Cmd → σ → StepOutcome × σ) (p : CoreCleanupProps) (s : σ) :
    HandlerRun σ :=
  match rt with
  | .delete => coreDeleteRun exec p s
  | _ => ⟨.success, [], s⟩

/-- Delete branch of the ArgoCDAddOn / ArgoRolloutsAddOn cleanup lambdas:
an unguarded update-kubeconfig call, a guarded helm uninstall, then a
guarded namespace deletion with --ignore-not-found; the guards absorb only
subprocess.CalledProcessError. -/
def helmDeleteRun {σ : Type} (exec : Cmd → σ → StepOutcome × σ)
    (p : HelmCleanupProps) (s : σ) : HandlerRun σ :=
  let c1 := Cmd.updateKubeconfig p.clusterName p.region
  let (r1, s1) := exec c1 s
  match r1 with
  | .ok =>
    let c2 := Cmd.helmUninstall p.releaseName p.nsName
    let (r2, s2) := exec c2 s1
    match r2 with
    | .exceptional => ⟨.failed, [c1, c2], s2⟩
    | _ =>
      let c3 := Cmd.kubectlDeleteNamespace p.nsName true
      let (r3, s3) := exec c3 s2
      match r3 with
      | .exceptional => ⟨.failed, [c1, c2, c3], s3⟩
      | _ => ⟨.success, [c1, c2, c3], s3⟩
  | _ => ⟨.failed, [c1], s1⟩

/-- Whole ArgoCDAddOn / ArgoRolloutsAddOn cleanup handler. -/
def helmCleanupHandler {σ : Type} (rt : RequestType)
    (exec : Cmd → σ → StepOutcome × σ) (p : HelmCleanupProps) (s : σ) :
    HandlerRun σ :=
  match rt with
  | .delete => helmDeleteRun exec p s
  | _ => ⟨.success, [], s⟩

/-- Executor whose behaviour is a fixed assignment of outcomes to commands
(state-free environment, used to quantify over all command behaviours). -/
def envExec (env : Cmd → StepOutcome) : Cmd → Unit → StepOutcome × Unit :=
  fun c _ => (env c, ())

/-- C2: for every lifecycle event whose type is Create or Update, both
cleanup handlers immediately report success and issue zero external calls;
the executor state is untouched. Only the Delete path performs work. -/
theorem create_update_noop {σ : Type} (exec : Cmd → σ → StepOutcome × σ)
    (pc : CoreCleanupProps) (ph : HelmCleanupProps) (s : σ) :
    coreCleanupHandler .create exec pc s = ⟨.success, [], s⟩ ∧
    coreCleanupHandler .update exec pc s = ⟨.success, [], s⟩ ∧
    helmCleanupHandler .create exec ph s = ⟨.success, [], s⟩ ∧
    helmCleanupHandler .update exec ph s = ⟨.success, [], s⟩ := by
  refine ⟨rfl, rfl, rfl, rfl⟩

/-- C1: with the external commands failing only through their exit status
(subprocess.CalledProcessError; no other exception is raised), a Delete
event is answered with FAILED exactly when the initial update-kubeconfig
step fails; failures of the release-uninstall, resource/CRD-deletion and
namespace-deletion steps are absorbed and the handler still reports
SUCCESS. Holds for both handler variants. -/
theorem teardown_failed_iff_kubeconfig_failed (pc : CoreCleanupProps)
    (ph : HelmCleanupProps) (env : Cmd → StepOutcome)
    (hnoexn : ∀ c, env c ≠ .exceptional) :
    ((coreCleanupHandler .delete (envExec env) pc ()).status = .failed ↔
      env (Cmd.updateKubeconfig pc.clusterName pc.region) ≠ .ok) ∧
    ((helmCleanupHandler .delete (envExec env) ph ()).status = .failed ↔
      env (Cmd.updateKubeconfig ph.clusterName ph.region) ≠ .ok) := by
  constructor
  · cases h1 : env (Cmd.updateKubeconfig pc.clusterName pc.region) <;>
      cases h2 : env (Cmd.kubectlDeleteAll pc.nsName) <;>
      cases h3 : env (Cmd.kubectlDeleteCRDs "app.kubernetes.io/part-of=argocd") <;>
      cases h4 : env (Cmd.kubectlDeleteNamespace pc.nsName true) <;>
      simp_all [coreCleanupHandler, coreDeleteRun, envExec]
  · cases h1 : env (Cmd.updateKubeconfig ph.clusterName ph.region) <;>
      cases h2 : env (Cmd.helmUninstall ph.releaseName ph.nsName) <;>
      cases h3 : env (Cmd.kubectlDeleteNamespace ph.nsName true) <;>
      simp_all [helmCleanupHandler, helmDeleteRun, envExec]

/-- Closed witness for teardown_failed_iff_kubeconfig_failed: an environment
where helm uninstall and the CRD deletion fail by exit status but
update-kubeconfig succeeds; the handlers still answer SUCCESS. -/
theorem teardown_failed_iff_kubeconfig_failed_witness :
    (coreCleanupHandler .delete
      (envExec (fun c => match c with
        | Cmd.kubectlDeleteCRDs _ => .exitFailure
        | _ => .ok))
      ⟨0, "argocd", "c", "r"⟩ ()).status ≠ .failed ∧
    (helmCleanupHandler .delete
      (envExec (fun c => match c with
        | Cmd.helmUninstall _ _ => .exitFailure
        | _ => .ok))
      ⟨0, "argocd", "argocd", "c", "r"⟩ ()).status ≠ .failed := by
  have hc := teardown_failed_iff_kubeconfig_failed
    ⟨0, "argocd", "c", "r"⟩ ⟨0, "argocd", "argocd", "c", "r"⟩
    (fun c => match c with
      | Cmd.kubectlDeleteCRDs _ => .exitFailure
      | _ => .ok)
    (by intro c; cases c <;> simp)
  have hh := teardown_failed_iff_kubeconfig_failed
    ⟨0, "argocd", "c", "r"⟩ ⟨0, "argocd", "argocd", "c", "r"⟩
    (fun c => match c with
      | Cmd.helmUninstall _ _ => .exitFailure
      | _ => .ok)
    (by intro c; cases c <;> simp)
  constructor
  · intro h
    exact absurd (hc.1.mp h) (by simp)
  · intro h
    exact absurd (hh.2.mp h) (by simp)

/-- C5: on a Delete event whose update-kubeconfig step succeeds and whose
commands fail only through their exit status, each handler issues its
compensating calls in the fixed order (1) update-kubeconfig,
(2) resource deletion / helm uninstall, (3) CRD deletion (core variant
only), (4) namespace deletion — every later step is issued no matter how
steps 2 and 3 exited, and the handler reports SUCCESS. -/
theorem cleanup_steps_fixed_order (pc : CoreCleanupProps)
    (ph : HelmCleanupProps) (env : Cmd → StepOutcome)
    (hnoexn : ∀ c, env c ≠ .exceptional)
    (hokc : env (Cmd.updateKubeconfig pc.clusterName pc.region) = .ok)
    (hokh : env (Cmd.updateKubeconfig ph.clusterName ph.region) = .ok) :
    coreCleanupHandler .delete (envExec env) pc () =
      ⟨.success,
        [Cmd.updateKubeconfig pc.clusterName pc.region,
         Cmd.kubectlDeleteAll pc.nsName,
         Cmd.kubectlDeleteCRDs "app.kubernetes.io/part-of=argocd",
         Cmd.kubectlDeleteNamespace pc.nsName true], ()⟩ ∧
    helmCleanupHandler .delete (envExec env) ph () =
      ⟨.success,
        [Cmd.updateKubeconfig ph.clusterName ph.region,
         Cmd.helmUninstall ph.releaseName ph.nsName,
         Cmd.kubectlDeleteNamespace ph.nsName true], ()⟩ := by
  constructor
  · cases h2 : env (Cmd.kubectlDeleteAll pc.nsName) <;>
      cases h3 : env (Cmd.kubectlDeleteCRDs "app.kubernetes.io/part-of=argocd") <;>
      cases h4 : env (Cmd.kubectlDeleteNamespace pc.nsName true) <;>
      simp_all [coreCleanupHandler, coreDeleteRun, envExec]
  · cases h2 : env (Cmd.helmUninstall ph.releaseName ph.nsName) <;>
      cases h3 : env (Cmd.kubectlDeleteNamespace ph.nsName true) <;>
      simp_all [helmCleanupHandler, helmDeleteRun, envExec]

/-- Closed witness for cleanup_steps_fixed_order: with the middle steps
failing by exit status, both handlers still issue every later call, in
order, and report SUCCESS. -/
theorem cleanup_steps_fixed_order_witness :
    coreCleanupHandler .delete
      (envExec (fun c => match c with
        | Cmd.kubectlDeleteAll _ => .exitFailure
        | Cmd.kubectlDeleteCRDs _ => .exitFailure
        | _ => .ok))
      ⟨7, "argocd", "c", "r"⟩ () =
      ⟨.success,
        [Cmd.updateKubeconfig "c" "r", Cmd.kubectlDeleteAll "argocd",
         Cmd.kubectlDeleteCRDs "app.kubernetes.io/part-of=argocd",
         Cmd.kubectlDeleteNamespace "argocd" true], ()⟩ ∧
    helmCleanupHandler .delete
      (envExec (fun c => match c with
        | Cmd.kubectlDeleteAll _ => .exitFailure
        | Cmd.kubectlDeleteCRDs _ => .exitFailure
        | _ => .ok))
      ⟨7, "argo-rollouts", "argo-rollouts", "c", "r"⟩ () =
      ⟨.success,
        [Cmd.updateKubeconfig "c" "r",
         Cmd.helmUninstall "argo-rollouts" "argo-rollouts",
         Cmd.kubectlDeleteNamespace "argo-rollouts" true], ()⟩ :=
  cleanup_steps_fixed_order ⟨7, "argocd", "c", "r"⟩
    ⟨7, "argo-rollouts", "argo-rollouts", "c", "r"⟩
    (fun c => match c with
      | Cmd.kubectlDeleteAll _ => .exitFailure
      | Cmd.kubectlDeleteCRDs _ => .exitFailure
      | _ => .ok)
    (by intro c; cases c <;> simp) rfl rfl

/-- C10: once the update-kubeconfig step has succeeded, the Delete path
reports SUCCESS exactly when no guarded step raises an exception other
than subprocess.CalledProcessError; a FileNotFoundError-style exception in
any guarded step escapes the per-step guard and the top-level handler
reports FAILED. The no-failure guarantee covers only command-exit-status
failures. -/
theorem only_exit_failures_absorbed (pc : CoreCleanupProps)
    (ph : HelmCleanupProps) (env : Cmd → StepOutcome)
    (hokc : env (Cmd.updateKubeconfig pc.clusterName pc.region) = .ok)
    (hokh : env (Cmd.updateKubeconfig ph.clusterName ph.region) = .ok) :
    ((coreCleanupHandler .delete (envExec env) pc ()).status = .success ↔
      (env (Cmd.kubectlDeleteAll pc.nsName) ≠ .exceptional ∧
       env (Cmd.kubectlDeleteCRDs "app.kubernetes.io/part-of=argocd") ≠ .exceptional ∧
       env (Cmd.kubectlDeleteNamespace pc.nsName true) ≠ .exceptional)) ∧
    ((helmCleanupHandler .delete (envExec env) ph ()).status = .success ↔
      (env (Cmd.helmUninstall ph.releaseName ph.nsName) ≠ .exceptional ∧
       env (Cmd.kubectlDeleteNamespace ph.nsName true) ≠ .exceptional)) := by
  constructor
  · cases h2 : env (Cmd.kubectlDeleteAll pc.nsName) <;>
      cases h3 : env (Cmd.kubectlDeleteCRDs "app.kubernetes.io/part-of=argocd") <;>
      cases h4 : env (Cmd.kubectlDeleteNamespace pc.nsName true) <;>
      simp_all [coreCleanupHandler, coreDeleteRun, envExec]
  · cases h2 : env (Cmd.helmUninstall ph.releaseName ph.nsName) <;>
      cases h3 : env (Cmd.kubectlDeleteNamespace ph.nsName true) <;>
      simp_all [helmCleanupHandler, helmDeleteRun, envExec]

/-- Closed witness for only_exit_failures_absorbed: an environment raising
a non-CalledProcessError exception in the helm uninstall / resource
deletion step makes both handlers report FAILED even though
update-kubeconfig succeeded. -/
theorem only_exit_failures_absorbed_witness :
    (coreCleanupHandler .delete
      (envExec (fun c => match c with
        | Cmd.kubectlDeleteAll _ => .exceptional
        | Cmd.helmUninstall _ _ => .exceptional
        | _ => .ok))
      ⟨0, "argocd", "c", "r"⟩ ()).status ≠ .success ∧
    (helmCleanupHandler .delete
      (envExec (fun c => match c with
        | Cmd.kubectlDeleteAll _ => .exceptional
        | Cmd.helmUninstall _ _ => .exceptional
        | _ => .ok))
      ⟨0, "argocd", "argocd", "c", "r"⟩ ()).status ≠ .success := by
  have h := only_exit_failures_absorbed ⟨0, "argocd", "c", "r"⟩
    ⟨0, "argocd", "argocd", "c", "r"⟩
    (fun c => match c with
      | Cmd.kubectlDeleteAll _ => .exceptional
      | Cmd.helmUninstall _ _ => .exceptional
      | _ => .ok) rfl rfl
  constructor
  · intro hs
    exact absurd ((h.1.mp hs).1) (by simp)
  · intro hs
    exact absurd ((h.2.mp hs).1) (by simp)

/-- Abstract state of the target cluster as seen by the cleanup commands:
whether the API endpoint is reachable, whether the helm release is
installed, and whether the add-on namespace exists. -/
structure ClusterState where
  reachable : Bool
  releaseInstalled : Bool
  nsExists : Bool
deriving DecidableEq, Repr

/-- Semantics of the external command surface (spec section 6 collaborator):
update-kubeconfig fails when the cluster is unreachable; helm uninstall
removes the release and fails by exit status when the release is absent;
kubectl delete namespace with --ignore-not-found succeeds on an absent
namespace (without the flag it would fail); the remaining deletions are
idempotent bulk deletes. -/
def clusterExec : Cmd → ClusterState → StepOutcome × ClusterState
  | Cmd.updateKubeconfig _ _, s =>
      if s.reachable then (.ok, s) else (.exitFailure, s)
  | Cmd.helmUninstall _ _, s =>
      if s.releaseInstalled then (.ok, { s with releaseInstalled := false })
      else (.exitFailure, s)
  | Cmd.kubectlDeleteAll _, s => (.ok, s)
  | Cmd.kubectlDeleteCRDs _, s => (.ok, s)
  | Cmd.kubectlDeleteNamespace _ ignoreMissing, s =>
      if s.nsExists then (.ok, { s with nsExists := false })
      else if ignoreMissing then (.ok, s) else (.exitFailure, s)

/-- C3: against a reachable cluster, running a Delete event twice with the
same property bag reaches the same terminal outcome both times: both runs
report SUCCESS, the second run leaves the cluster state exactly where the
first run left it, and the namespace-deletion step of the second run is
not an error even though the namespace is already gone, because the
handlers pass --ignore-not-found. Holds for both handler variants. -/
theorem delete_idempotent (pc : CoreCleanupProps) (ph : HelmCleanupProps)
    (s : ClusterState) (hreach : s.reachable = true) :
    ((helmCleanupHandler .delete clusterExec ph s).status = .success ∧
     (helmCleanupHandler .delete clusterExec ph
        (helmCleanupHandler .delete clusterExec ph s).final).status = .success ∧
     (helmCleanupHandler .delete clusterExec ph
        (helmCleanupHandler .delete clusterExec ph s).final).final =
       (helmCleanupHandler .delete clusterExec ph s).final) ∧
    ((coreCleanupHandler .delete clusterExec pc s).status = .success ∧
     (coreCleanupHandler .delete clusterExec pc
        (coreCleanupHandler .delete clusterExec pc s).final).status = .success ∧
     (coreCleanupHandler .delete clusterExec pc
        (coreCleanupHandler .delete clusterExec pc s).final).final =
       (coreCleanupHandler .delete clusterExec pc s).final) ∧
    (∀ t : ClusterState, ∀ nsn : String, t.nsExists = false →
      clusterExec (Cmd.kubectlDeleteNamespace nsn true) t = (.ok, t)) := by
  refine ⟨?_, ?_, ?_⟩
  · rcases s with ⟨r, rel, ns⟩
    cases r <;> cases rel <;> cases ns <;>
      simp_all [helmCleanupHandler, helmDeleteRun, clusterExec]
  · rcases s with ⟨r, rel, ns⟩
    cases r <;> cases rel <;> cases ns <;>
      simp_all [coreCleanupHandler, coreDeleteRun, clusterExec]
  · intro t nsn ht
    rcases t with ⟨r, rel, ns⟩
    simp_all [clusterExec]

/-- Closed witness for delete_idempotent at the fully populated initial
cluster state. -/
theorem delete_idempotent_witness :
    ((helmCleanupHandler .delete clusterExec ⟨1, "argocd", "argocd", "c", "r"⟩
        ⟨true, true, true⟩).status = .success ∧
     (helmCleanupHandler .delete clusterExec ⟨1, "argocd", "argocd", "c", "r"⟩
        (helmCleanupHandler .delete clusterExec ⟨1, "argocd", "argocd", "c", "r"⟩
          ⟨true, true, true⟩).final).status = .success ∧
     (helmCleanupHandler .delete clusterExec ⟨1, "argocd", "argocd", "c", "r"⟩
        (helmCleanupHandler .delete clusterExec ⟨1, "argocd", "argocd", "c", "r"⟩
          ⟨true, true, true⟩).final).final =
       (helmCleanupHandler .delete clusterExec ⟨1, "argocd", "argocd", "c", "r"⟩
          ⟨true, true, true⟩).final) ∧
    ((coreCleanupHandler .delete clusterExec ⟨1, "argocd", "c", "r"⟩
        ⟨true, true, true⟩).status = .success ∧
     (coreCleanupHandler .delete clusterExec ⟨1, "argocd", "c", "r"⟩
        (coreCleanupHandler .delete clusterExec ⟨1, "argocd", "c", "r"⟩
          ⟨true, true, true⟩).final).status = .success ∧
     (coreCleanupHandler .delete clusterExec ⟨1, "argocd", "c", "r"⟩
        (coreCleanupHandler .delete clusterExec ⟨1, "argocd", "c", "r"⟩
          ⟨true, true, true⟩).final).final =
       (coreCleanupHandler .delete clusterExec ⟨1, "argocd", "c", "r"⟩
          ⟨true, true, true⟩).final) ∧
    (∀ t : ClusterState, ∀ nsn : String, t.nsExists = false →
      clusterExec (Cmd.kubectlDeleteNamespace nsn true) t = (.ok, t)) :=
  delete_idempotent ⟨1, "argocd", "c", "r"⟩ ⟨1, "argocd", "argocd", "c", "r"⟩
    ⟨true, true, true⟩ rfl

/-- Kind tag of a declarative cluster resource created during deploy. -/
inductive ResourceKind
  | namespaceManifest
  | serviceAccount
  | roleBinding
  | workload
  | chartRelease
  | teardownRegistration
deriving DecidableEq, Repr

/-- One CDK construct created by a deploy method: its construct id, kind,
and the ids it was given explicit addDependency edges to. -/
structure ResourceNode where
  id : String
  kind : ResourceKind
  dependsOn : List String
deriving DecidableEq, Repr

/-- Nodes created by ArgoCDCoreAddOn.deploy, in source submission order:
namespace manifest, installer service account, installer role binding, the
kubectl-apply job, and (when cleanup is enabled) the cleanup custom
resource; the addDependency chain is sa after ns, rb after sa, job after
rb, and cleanup resource after the job. -/
def argoCDCoreNodes (cleanupEnabled : Bool) : List ResourceNode :=
  [⟨"argocd-namespace", .namespaceManifest, []⟩,
   ⟨"argocd-installer-sa", .serviceAccount, ["argocd-namespace"]⟩,
   ⟨"argocd-installer-rb", .roleBinding, ["argocd-installer-sa"]⟩,
   ⟨"argocd-apply", .workload, ["argocd-installer-rb"]⟩] ++
  (if cleanupEnabled then
     [⟨"argocd-core-cleanup-cr", .teardownRegistration, ["argocd-apply"]⟩]
   else [])

/-- Nodes created by ArgoCDAddOn.deploy: namespace manifest (when
createNamespace), the helm chart (depending on the namespace when it was
created), and the cleanup custom resource depending on the chart. -/
def argoCDNodes (createNamespace cleanupEnabled : Bool) : List ResourceNode :=
  (if createNamespace then
     [⟨"argocd-namespace", .namespaceManifest, []⟩,
      ⟨"argocd", .chartRelease, ["argocd-namespace"]⟩]
   else [⟨"argocd", .chartRelease, []⟩]) ++
  (if cleanupEnabled then
     [⟨"argocd-cleanup-cr", .teardownRegistration, ["argocd"]⟩]
   else [])

/-- Nodes created by ArgoRolloutsAddOn.deploy, same shape as ArgoCDAddOn. -/
def argoRolloutsNodes (createNamespace cleanupEnabled : Bool) :
    List ResourceNode :=
  (if createNamespace then
     [⟨"argo-rollouts-namespace", .namespaceManifest, []⟩,
      ⟨"argo-rollouts", .chartRelease, ["argo-rollouts-namespace"]⟩]
   else [⟨"argo-rollouts", .chartRelease, []⟩]) ++
  (if cleanupEnabled then
     [⟨"argo-rollouts-cleanup-cr", .teardownRegistration, ["argo-rollouts"]⟩]
   else [])

/-- Result of one deploy call: the created nodes in submission order, the
id of the construct the method returns, and the id the cleanup custom
resource was attached to (none when cleanup is disabled). -/
structure DeployOutcome where
  nodes : List ResourceNode
  returned : String
  teardownOwner : Option String
deriving DecidableEq, Repr

/-- ArgoCDCoreAddOn.deploy returns the kubectl-apply job construct
(applyArgoCD) whether or not cleanup is enabled; setupCleanupMechanism
attaches the cleanup resource to that job. -/
def argoCDCoreDeploy (cleanupEnabled : Bool) : DeployOutcome :=
  { nodes := argoCDCoreNodes cleanupEnabled
    returned := "argocd-apply"
    teardownOwner := if cleanupEnabled then some "argocd-apply" else none }

/-- ArgoCDAddOn.deploy assigns mainResource := chart, but when cleanup is
enabled reassigns mainResource := setupCleanupMechanism(...), which
returns the cleanup custom resource; the cleanup resource itself is
attached to the chart. -/
def argoCDDeploy (createNamespace cleanupEnabled : Bool) : DeployOutcome :=
  { nodes := argoCDNodes createNamespace cleanupEnabled
    returned := if cleanupEnabled then "argocd-cleanup-cr" else "argocd"
    teardownOwner := if cleanupEnabled then some "argocd" else none }

/-- ArgoRolloutsAddOn.deploy, same reassignment as ArgoCDAddOn.deploy. -/
def argoRolloutsDeploy (createNamespace cleanupEnabled : Bool) :
    DeployOutcome :=
  { nodes := argoRolloutsNodes createNamespace cleanupEnabled
    returned := if cleanupEnabled then "argo-rollouts-cleanup-cr" else "argo-rollouts"
    teardownOwner := if cleanupEnabled then some "argo-rollouts" else none }

/-- Creation order is consistent with the declared dependsOn edges: every
node's dependencies already appear among the ids created before it. -/
def respectsDeps (seen : List String) : List ResourceNode → Bool
  | [] => true
  | n :: rest =>
      n.dependsOn.all (fun d => seen.contains d) &&
      respectsDeps (seen ++ [n.id]) rest

/-- Each consecutively created node declares an explicit dependsOn edge on
its immediate predecessor. -/
def chainLinked : List ResourceNode → Bool
  | [] => true
  | [_] => true
  | a :: b :: rest => b.dependsOn.contains a.id && chainLinked (b :: rest)

/-- C4: in every deploy variant the nodes are created strictly in
dependency order (namespace, then service account, then role binding,
then the workload/chart, then the cleanup resource): no node is submitted
before everything it depends on, and each node carries an explicit
dependency edge on its predecessor. -/
theorem deploy_order_respects_deps (cn ce : Bool) :
    respectsDeps [] (argoCDCoreNodes ce) = true ∧
    chainLinked (argoCDCoreNodes ce) = true ∧
    respectsDeps [] (argoCDNodes cn ce) = true ∧
    chainLinked (argoCDNodes cn ce) = true ∧
    respectsDeps [] (argoRolloutsNodes cn ce) = true ∧
    chainLinked (argoRolloutsNodes cn ce) = true := by
  cases cn <;> cases ce <;> decide

/-- Kind of the node a deploy call hands back to the framework. -/
def returnedKind (d : DeployOutcome) : Option ResourceKind :=
  (d.nodes.find? (fun n => n.id == d.returned)).map (fun n => n.kind)

/-- C6 counterexample: with its default properties (createNamespace and
cleanupEnabled both true), ArgoCDAddOn.deploy does not return the chart
release: it returns the cleanup custom resource (the teardown
registration), whose id differs from the chart id argocd. The same holds
for ArgoRolloutsAddOn. -/
theorem deploy_returns_registration_counterexample :
    (argoCDDeploy true true).returned = "argocd-cleanup-cr" ∧
    returnedKind (argoCDDeploy true true) = some .teardownRegistration ∧
    (argoCDDeploy true true).returned ≠ "argocd" ∧
    returnedKind (argoRolloutsDeploy true true) =
      some .teardownRegistration := by
  decide

/-- C6 amended: ArgoCDCoreAddOn.deploy always returns the main workload
manifest; the helm-based add-ons return the chart release when cleanup is
disabled but the cleanup custom resource (the last created node) when
cleanup is enabled — and in every cleanup-enabled variant the teardown
registration is attached to the chart/workload, not to the returned
construct of the helm variants. -/
theorem deploy_returned_construct (cn ce : Bool) :
    returnedKind (argoCDCoreDeploy ce) = some .workload ∧
    returnedKind (argoCDDeploy cn ce) =
      some (if ce then .teardownRegistration else .chartRelease) ∧
    returnedKind (argoRolloutsDeploy cn ce) =
      some (if ce then .teardownRegistration else .chartRelease) ∧
    (if ce then
        (argoCDDeploy cn ce).nodes.getLast?.map (fun n => n.id) =
          some (argoCDDeploy cn ce).returned ∧
        (argoRolloutsDeploy cn ce).nodes.getLast?.map (fun n => n.id) =
          some (argoRolloutsDeploy cn ce).returned
      else True) ∧
    (argoCDCoreDeploy true).teardownOwner = some "argocd-apply" ∧
    (argoCDDeploy cn true).teardownOwner = some "argocd" ∧
    (argoRolloutsDeploy cn true).teardownOwner = some "argo-rollouts" := by
  cases cn <;> cases ce <;> decide

/-- Registration follows its owner: the deploy outcome contains a teardown
registration node that declares a dependsOn edge on the registered owner,
and the owner's position in the creation order strictly precedes the
registration's. -/
def crFollowsOwner (d : DeployOutcome) : Bool :=
  match d.teardownOwner with
  | none => false
  | some owner =>
    match d.nodes.find? (fun n => n.kind == .teardownRegistration) with
    | none => false
    | some cr =>
      cr.dependsOn.contains owner &&
      (match d.nodes.findIdx? (fun n => n.id == owner),
             d.nodes.findIdx? (fun n => n.id == cr.id) with
       | some i, some j => decide (i < j)
       | _, _ => false)

/-- C8: whenever cleanup is enabled, each deploy variant creates the
cleanup custom resource with an explicit dependency edge on the primary
resource (the chart or workload), so the registration is created strictly
after its owner exists. -/
theorem cleanup_cr_after_owner (cn : Bool) :
    crFollowsOwner (argoCDCoreDeploy true) = true ∧
    crFollowsOwner (argoCDDeploy cn true) = true ∧
    crFollowsOwner (argoRolloutsDeploy cn true) = true := by
  cases cn <;> decide

/-- Property bag built by ArgoCDCoreAddOn.setupCleanupMechanism: timestamp
is the Date.now() reading taken at registration time. -/
def argoCDCoreRegistration (now : Nat) (nsn clusterName region : String) :
    CoreCleanupProps :=
  { timestamp := now, nsName := nsn, clusterName := clusterName,
    region := region }

/-- Property bag built by ArgoCDAddOn.setupCleanupMechanism (fixed release
name argocd). -/
def argoCDRegistration (now : Nat) (nsn clusterName region : String) :
    HelmCleanupProps :=
  { timestamp := now, nsName := nsn, releaseName := "argocd",
    clusterName := clusterName, region := region }

/-- C7: two registrations of the same logical add-on issued at distinct
clock readings carry distinct timestamp nonces, hence distinct property
bags: a re-issued registration is never property-wise equal to an earlier
one, so the external controller treats it as materially new. -/
theorem registration_nonce_fresh (t1 t2 : Nat) (nsn cn rg : String)
    (h : t1 < t2) :
    (argoCDCoreRegistration t2 nsn cn rg).timestamp ≠
      (argoCDCoreRegistration t1 nsn cn rg).timestamp ∧
    argoCDCoreRegistration t2 nsn cn rg ≠ argoCDCoreRegistration t1 nsn cn rg ∧
    (argoCDRegistration t2 nsn cn rg).timestamp ≠
      (argoCDRegistration t1 nsn cn rg).timestamp ∧
    argoCDRegistration t2 nsn cn rg ≠ argoCDRegistration t1 nsn cn rg := by
  have hne : t2 ≠ t1 := Nat.ne_of_gt h
  exact ⟨hne,
    fun he => hne (congrArg CoreCleanupProps.timestamp he),
    hne,
    fun he => hne (congrArg HelmCleanupProps.timestamp he)⟩

/-- Closed witness for registration_nonce_fresh at clock readings 0 and 1. -/
theorem registration_nonce_fresh_witness :
    (argoCDCoreRegistration 1 "argocd" "c" "r").timestamp ≠
      (argoCDCoreRegistration 0 "argocd" "c" "r").timestamp ∧
    argoCDCoreRegistration 1 "argocd" "c" "r" ≠
      argoCDCoreRegistration 0 "argocd" "c" "r" ∧
    (argoCDRegistration 1 "argocd" "c" "r").timestamp ≠
      (argoCDRegistration 0 "argocd" "c" "r").timestamp ∧
    argoCDRegistration 1 "argocd" "c" "r" ≠
      argoCDRegistration 0 "argocd" "c" "r" :=
  registration_nonce_fresh 0 1 "argocd" "c" "r" (by decide)

/-- Ids of a node set, in insertion order. -/
def nodeIds (nodes : List ResourceNode) : List String :=
  nodes.map (fun n => n.id)

/-- Modelled from the spec: error taxonomy of DependencyGraph.build
(spec sections 4.1 and 7); the repository has no DependencyGraph source —
ordering is delegated to the external CDK dependency engine — so the
graph-construction contract is modelled from the spec text. -/
inductive BuildError
  | cycleError
  | unknownDependencyError
deriving DecidableEq, Repr

/-- Modelled from the spec: a node references an id not present in the
node set. -/
def hasUnknownDep (nodes : List ResourceNode) : Bool :=
  nodes.any (fun n => n.dependsOn.any (fun d => !(decide (d ∈ nodeIds nodes))))

/-- Finite universe of ids mentioned anywhere in the node set. -/
def depUniverse (nodes : List ResourceNode) : Finset String :=
  (nodes.map (fun n => n.id)).toFinset ∪
    (nodes.map (fun n => n.dependsOn)).flatten.toFinset

/-- One expansion step of the dependsOn closure: add the dependencies of
every node whose id is already in the set. -/
def depStep (nodes : List ResourceNode) (s : Finset String) : Finset String :=
  s ∪ nodes.foldr
    (fun n acc => if n.id ∈ s then n.dependsOn.toFinset ∪ acc else acc) ∅

/-- Modelled from the spec: the dependsOn closure of a node (spec section
4.1), computed by saturating the expansion step; (depUniverse).card + 1
iterations are enough to reach the fixpoint. -/
def depClosure (nodes : List ResourceNode) (n : ResourceNode) : Finset String :=
  (depStep nodes)^[(depUniverse nodes).card + 1] n.dependsOn.toFinset

/-- Modelled from the spec: some node's dependsOn closure includes its own
id. -/
def hasCycle (nodes : List ResourceNode) : Bool :=
  nodes.any (fun n => decide (n.id ∈ depClosure nodes n))

/-- Kahn-style scheduling pass: repeatedly emit (in insertion order) every
node all of whose dependencies are already emitted. -/
def kahnAux : Nat → List String → List ResourceNode → List ResourceNode
  | 0, _, _ => []
  | fuel + 1, emitted, remaining =>
    match remaining.partition
        (fun n => n.dependsOn.all (fun d => emitted.contains d)) with
    | ([], _) => []
    | (ready, notReady) =>
        ready ++ kahnAux fuel (emitted ++ ready.map (fun n => n.id)) notReady

/-- Modelled from the spec: DependencyGraph.build (spec section 4.1) —
reject a reference to an absent id with unknownDependencyError, reject a
node whose dependsOn closure includes itself with cycleError, otherwise
produce the deterministic topological order with insertion-order
tie-breaking. -/
def build (nodes : List ResourceNode) : Except BuildError (List ResourceNode) :=
  if hasUnknownDep nodes then .error .unknownDependencyError
  else if hasCycle nodes then .error .cycleError
  else .ok (kahnAux nodes.length [] nodes)

/-- Modelled from the spec: the AddonDeployer issues one create call per
node of the order produced by build; when build fails, no create call is
issued at all (spec section 7: graph errors reject before any cluster
call). Returns the ids passed to create, in order. -/
def deployViaGraph (nodes : List ResourceNode) :
    Except BuildError (List String) :=
  match build nodes with
  | .error e => .error e
  | .ok l => .ok (l.map (fun n => n.id))

/-- Dependency edge at the level of ids: some node of the set carries id a
and lists d among its dependsOn. -/
def DepEdge (nodes : List ResourceNode) (a d : String) : Prop :=
  ∃ n ∈ nodes, n.id = a ∧ d ∈ n.dependsOn

/-- Transitive (one step or more) dependency reachability between ids. -/
inductive DepReach (nodes : List ResourceNode) : String → String → Prop
  | single {a d : String} : DepEdge nodes a d → DepReach nodes a d
  | head {a b d : String} : DepEdge nodes a b → DepReach nodes b d →
      DepReach nodes a d

theorem subset_depStep (nodes : List ResourceNode) (s : Finset String) :
    s ⊆ depStep nodes s :=
  Finset.subset_union_left

theorem depExpand_mem {nodes : List ResourceNode} {s : Finset String}
    {n : ResourceNode} {d : String} (hn : n ∈ nodes) (hid : n.id ∈ s)
    (hd : d ∈ n.dependsOn) :
    d ∈ nodes.foldr
      (fun m acc => if m.id ∈ s then m.dependsOn.toFinset ∪ acc else acc)
      ∅ := by
  induction nodes with
  | nil => cases hn
  | cons m rest ih =>
    rcases List.mem_cons.mp hn with rfl | hn'
    · simp only [List.foldr_cons, if_pos hid]
      exact Finset.mem_union_left _ (List.mem_toFinset.mpr hd)
    · simp only [List.foldr_cons]
      by_cases hm : m.id ∈ s
      · exact if_pos hm ▸ Finset.mem_union_right _ (ih hn')
      · exact if_neg hm ▸ ih hn'

theorem mem_depStep_of_edge {nodes : List ResourceNode} {s : Finset String}
    {a d : String} (ha : a ∈ s) (he : DepEdge nodes a d) :
    d ∈ depStep nodes s := by
  obtain ⟨n, hn, hid, hd⟩ := he
  have hid' : n.id ∈ s := by rw [hid]; exact ha
  exact Finset.mem_union_right _ (depExpand_mem hn hid' hd)

theorem depExpand_subset_flatten (l : List ResourceNode) (s : Finset String) :
    l.foldr (fun m acc => if m.id ∈ s then m.dependsOn.toFinset ∪ acc else acc) ∅ ⊆
      (l.map (fun n => n.dependsOn)).flatten.toFinset := by
  induction l with
  | nil => simp
  | cons m rest ih =>
    simp only [List.foldr_cons, List.map_cons, List.flatten_cons,
      List.toFinset_append]
    by_cases hm : m.id ∈ s
    · rw [if_pos hm]
      exact Finset.union_subset_union (Finset.Subset.refl _) ih
    · rw [if_neg hm]
      exact ih.trans Finset.subset_union_right

theorem depStep_subset_universe {nodes : List ResourceNode} {s : Finset String}
    (hs : s ⊆ depUniverse nodes) : depStep nodes s ⊆ depUniverse nodes := by
  apply Finset.union_subset hs
  exact (depExpand_subset_flatten nodes s).trans Finset.subset_union_right

theorem iterate_subset_universe {nodes : List ResourceNode} {s : Finset String}
    (hs : s ⊆ depUniverse nodes) (k : Nat) :
    (depStep nodes)^[k] s ⊆ depUniverse nodes := by
  induction k with
  | zero => simpa using hs
  | succ k ih =>
    rw [Function.iterate_succ_apply']
    exact depStep_subset_universe ih

theorem subset_iterate (nodes : List ResourceNode) (s : Finset String) (k : Nat) :
    s ⊆ (depStep nodes)^[k] s := by
  induction k with
  | zero => simp
  | succ k ih =>
    rw [Function.iterate_succ_apply']
    exact ih.trans (subset_depStep nodes _)

theorem iterate_card_grow (nodes : List ResourceNode) (s : Finset String) :
    ∀ k : Nat,
      (∀ i, i < k → (depStep nodes)^[i + 1] s ≠ (depStep nodes)^[i] s) →
      k ≤ ((depStep nodes)^[k] s).card := by
  intro k
  induction k with
  | zero => intro _; exact Nat.zero_le _
  | succ k ih =>
    intro h
    have hk : k ≤ ((depStep nodes)^[k] s).card :=
      ih (fun i hi => h i (Nat.lt_succ_of_lt hi))
    have hne : (depStep nodes)^[k + 1] s ≠ (depStep nodes)^[k] s :=
      h k (Nat.lt_succ_self k)
    have hsub : (depStep nodes)^[k] s ⊆ (depStep nodes)^[k + 1] s := by
      rw [Function.iterate_succ_apply']
      exact subset_depStep nodes _
    have hlt : ((depStep nodes)^[k] s).card < ((depStep nodes)^[k + 1] s).card := by
      by_contra hcon
      exact hne (Finset.eq_of_subset_of_card_le hsub (Nat.le_of_not_lt hcon)).symm
    omega

theorem depClosure_fixed {nodes : List ResourceNode} {n : ResourceNode}
    (hn : n ∈ nodes) :
    depStep nodes (depClosure nodes n) = depClosure nodes n := by
  have hs0 : n.dependsOn.toFinset ⊆ depUniverse nodes := by
    intro x hx
    apply Finset.mem_union_right
    rw [List.mem_toFinset] at hx ⊢
    exact List.mem_flatten.mpr ⟨n.dependsOn, List.mem_map.mpr ⟨n, hn, rfl⟩, hx⟩
  have hstab : ∃ i, i < (depUniverse nodes).card + 1 ∧
      (depStep nodes)^[i + 1] n.dependsOn.toFinset =
        (depStep nodes)^[i] n.dependsOn.toFinset := by
    by_contra hcon
    push_neg at hcon
    have hgrow := iterate_card_grow nodes n.dependsOn.toFinset
      ((depUniverse nodes).card + 1) (fun i hi => hcon i hi)
    have hbound :
        (((depStep nodes)^[(depUniverse nodes).card + 1] n.dependsOn.toFinset)).card ≤
          (depUniverse nodes).card :=
      Finset.card_le_card (iterate_subset_universe hs0 _)
    omega
  obtain ⟨i, hiN, hfix⟩ := hstab
  have hfix' : depStep nodes ((depStep nodes)^[i] n.dependsOn.toFinset) =
      (depStep nodes)^[i] n.dependsOn.toFinset := by
    rw [Function.iterate_succ_apply'] at hfix
    exact hfix
  have hclosure : depClosure nodes n =
      (depStep nodes)^[i] n.dependsOn.toFinset := by
    unfold depClosure
    rw [show (depUniverse nodes).card + 1 =
        ((depUniverse nodes).card + 1 - i) + i by omega,
      Function.iterate_add_apply]
    exact Function.iterate_fixed hfix' _
  rw [hclosure]
  exact hfix'

theorem reach_mem_closure {nodes : List ResourceNode}
    (hnodup : (nodeIds nodes).Nodup) {n : ResourceNode} (hn : n ∈ nodes) :
    ∀ a d : String, DepReach nodes a d →
      (a = n.id ∨ a ∈ depClosure nodes n) → d ∈ depClosure nodes n := by
  have hedge : ∀ a d : String, DepEdge nodes a d →
      (a = n.id ∨ a ∈ depClosure nodes n) → d ∈ depClosure nodes n := by
    intro a d he hcase
    rcases hcase with rfl | hmem
    · obtain ⟨m, hm, hid, hd⟩ := he
      have hmn : m = n := List.inj_on_of_nodup_map hnodup hm hn hid
      have hdn : d ∈ n.dependsOn := hmn ▸ hd
      unfold depClosure
      exact subset_iterate nodes n.dependsOn.toFinset _
        (List.mem_toFinset.mpr hdn)
    · have hin := mem_depStep_of_edge hmem he
      rwa [depClosure_fixed hn] at hin
  intro a d hreach
  induction hreach with
  | single h => exact hedge _ _ h
  | head h _ ih =>
    intro hcase
    exact ih (Or.inr (hedge _ _ h hcase))

theorem hasCycle_of_reach {nodes : List ResourceNode}
    (hnodup : (nodeIds nodes).Nodup)
    (hcyc : ∃ n ∈ nodes, DepReach nodes n.id n.id) :
    hasCycle nodes = true := by
  obtain ⟨n, hn, hr⟩ := hcyc
  have hmem : n.id ∈ depClosure nodes n :=
    reach_mem_closure hnodup hn n.id n.id hr (Or.inl rfl)
  unfold hasCycle
  rw [List.any_eq_true]
  exact ⟨n, hn, decide_eq_true hmem⟩

theorem hasUnknownDep_of_missing {nodes : List ResourceNode}
    (h : ∃ n ∈ nodes, ∃ d ∈ n.dependsOn, ∀ m ∈ nodes, m.id ≠ d) :
    hasUnknownDep nodes = true := by
  obtain ⟨n, hn, d, hd, hmiss⟩ := h
  unfold hasUnknownDep
  rw [List.any_eq_true]
  refine ⟨n, hn, ?_⟩
  rw [List.any_eq_true]
  refine ⟨d, hd, ?_⟩
  simp only [Bool.not_eq_true', decide_eq_false_iff_not]
  intro hmem
  obtain ⟨m, hm, hmd⟩ := List.mem_map.mp hmem
  exact hmiss m hm hmd

/-- C9: DependencyGraph.build (modelled from the spec, no repository
source exists for it) rejects a node set containing a dependency cycle —
some node transitively reaching its own id, self-reference included —
with cycleError, given unique ids and no reference to an absent id; and
it rejects a node set in which some node references an id carried by no
node with unknownDependencyError. In both cases the deployer issues no
create call at all. -/
theorem graph_build_rejects_cycles_and_unknown :
    (∀ nodes : List ResourceNode, (nodeIds nodes).Nodup →
      hasUnknownDep nodes = false →
      (∃ n ∈ nodes, DepReach nodes n.id n.id) →
      build nodes = .error .cycleError ∧
      deployViaGraph nodes = .error .cycleError) ∧
    (∀ nodes : List ResourceNode,
      (∃ n ∈ nodes, ∃ d ∈ n.dependsOn, ∀ m ∈ nodes, m.id ≠ d) →
      build nodes = .error .unknownDependencyError ∧
      deployViaGraph nodes = .error .unknownDependencyError) := by
  constructor
  · intro nodes hnodup hunk hcyc
    have hb : build nodes = .error .cycleError := by
      simp [build, hunk, hasCycle_of_reach hnodup hcyc]
    exact ⟨hb, by simp [deployViaGraph, hb]⟩
  · intro nodes hmiss
    have hb : build nodes = .error .unknownDependencyError := by
      simp [build, hasUnknownDep_of_missing hmiss]
    exact ⟨hb, by simp [deployViaGraph, hb]⟩

/-- Closed witness for graph_build_rejects_cycles_and_unknown: a
self-referencing single node is rejected with cycleError, and a node
depending on an absent id is rejected with unknownDependencyError. -/
theorem graph_build_rejects_witness :
    build [⟨"a", .workload, ["a"]⟩] = .error .cycleError ∧
    build [⟨"b", .workload, ["missing"]⟩] =
      .error .unknownDependencyError := by
  constructor
  · exact (graph_build_rejects_cycles_and_unknown.1 [⟨"a", .workload, ["a"]⟩]
      (by decide) (by decide)
      ⟨⟨"a", .workload, ["a"]⟩, by simp,
        DepReach.single ⟨⟨"a", .workload, ["a"]⟩, by simp, rfl, by simp⟩⟩).1
  · exact (graph_build_rejects_cycles_and_unknown.2
      [⟨"b", .workload, ["missing"]⟩]
      ⟨⟨"b", .workload, ["missing"]⟩, by simp, "missing", by simp,
        by decide⟩).1
